import Mathlib

/-!
# Verification of the T1 entity layer (`terminalone/entity.py`, `terminalone/models/budgetflight.py`)

Shallow embedding of the property-coercion and write-validation pipeline of the
T1 client entity layer.  Python dicts with string keys become association lists
`List (String × PyVal)` (Python 3 dicts preserve insertion order: assignment to
an existing key updates its value in place, a new key is appended, `del`
removes the entry).  Python values that flow through the coercion tables are
modelled by the inductive type `PyVal`; Python exceptions by `PyErr` and
fallible code by `Except PyErr`.  The HTTP transport (`Connection._post`) is an
external collaborator and is passed in as a function argument; the requests a
`save` issues are collected in the result so that "no network call was made"
is expressible.
-/

set_option autoImplicit false

namespace T1

/-- The Python exception kinds reachable from the embedded code.
`attributeError` is the spec's `AttributeNotFound`, `valueError` its
`FormatError`. -/
inductive PyErr where
  | attributeError (name : String)
  | clientError (msg : String)
  | typeError (msg : String)
  | valueError (msg : String)
  | stopIteration
  | indexError
  deriving DecidableEq, Repr

/-- A `datetime.datetime` value restricted to the fields the format string
`"%Y-%m-%dT%H:%M:%S"` touches (microseconds are always zero on the values this
code produces and are never formatted, so they are omitted). -/
structure DT where
  year : Nat
  month : Nat
  day : Nat
  hour : Nat
  minute : Nat
  second : Nat
  deriving DecidableEq, Repr

/-- A Python value as it appears in an entity's property mapping.  The
coercion tables of the repository only ever produce ints, floats, bools,
strings, `None` and `datetime` values.  Floats are modelled as rationals. -/
inductive PyVal where
  | int (n : Int)
  | float (q : Rat)
  | str (s : String)
  | bool (b : Bool)
  | none
  | dt (d : DT)
  deriving DecidableEq, Repr

/-- A Python dict with string keys, as an insertion-ordered association list. -/
abbrev PData := List (String × PyVal)

/-- Dict lookup: value of the first (only) entry with the given key. -/
def plookup : PData → String → Option PyVal
  | [], _ => Option.none
  | (k', v) :: t, k => if k' = k then some v else plookup t k

/-- Python `key in dict`. -/
def pmem (d : PData) (k : String) : Bool := (plookup d k).isSome

/-- Python `dict[key] = value`: update in place if present, append otherwise. -/
def pset : PData → String → PyVal → PData
  | [], k, v => [(k, v)]
  | (k', v') :: t, k, v => if k' = k then (k', v) :: t else (k', v') :: pset t k v

/-- Python `del dict[key]` (keys are unique in a dict, so removing every
entry with the key is faithful). -/
def pdel : PData → String → PData
  | [], _ => []
  | (k', v) :: t, k => if k' = k then pdel t k else (k', v) :: pdel t k

/-- The keys of a dict, in order. -/
def pkeys (d : PData) : List String := d.map Prod.fst

/-! ## The `datetime` format `"%Y-%m-%dT%H:%M:%S"`

`Entity._strpt` (entity.py lines 124-128) parses a string with
`datetime.strptime(ti, "%Y-%m-%dT%H:%M:%S")` unless it is already a
`datetime`; `Entity._strft` (lines 130-132) formats with the same pattern.
The parser is modelled on the format's canonical zero-padded form (the only
form the paired formatter produces; CPython's `strptime` additionally accepts
unpadded fields, which no value produced by this library ever exhibits), and
`%Y` is modelled as zero-padded to four digits as documented. -/

/-- The numeric value of a digit character, if it is one. -/
def digitVal : Char → Option Nat :=
  fun c => if c.isDigit then some (c.toNat - 48) else Option.none

/-- Gregorian leap-year rule used by `datetime`'s day-of-month validation. -/
def isLeap (y : Nat) : Bool := (y % 4 == 0 && y % 100 != 0) || y % 400 == 0

/-- Number of days in a month, as `datetime` validates them. -/
def daysInMonth (y m : Nat) : Nat :=
  if m = 2 then (if isLeap y then 29 else 28)
  else if m = 4 ∨ m = 6 ∨ m = 9 ∨ m = 11 then 30
  else 31

/-- The field ranges `datetime` accepts (`MINYEAR = 1`, `MAXYEAR = 9999`). -/
def validDT (d : DT) : Prop :=
  1 ≤ d.year ∧ d.year ≤ 9999 ∧ 1 ≤ d.month ∧ d.month ≤ 12 ∧
    1 ≤ d.day ∧ d.day ≤ daysInMonth d.year d.month ∧
    d.hour ≤ 23 ∧ d.minute ≤ 59 ∧ d.second ≤ 59

instance (d : DT) : Decidable (validDT d) := by unfold validDT; infer_instance

/-- A zero-padded two-digit field. -/
def read2 (a b : Char) : Option Nat :=
  match digitVal a, digitVal b with
  | some x, some y => some (10 * x + y)
  | _, _ => Option.none

/-- A zero-padded four-digit field. -/
def read4 (a b c d : Char) : Option Nat :=
  match digitVal a, digitVal b, digitVal c, digitVal d with
  | some w, some x, some y, some z => some (1000 * w + 100 * x + 10 * y + z)
  | _, _, _, _ => Option.none

/-- Combination of the six parsed fields into a validated `datetime`. -/
def mkDT : Option Nat → Option Nat → Option Nat → Option Nat → Option Nat →
    Option Nat → Option DT
  | some y, some mo, some da, some ho, some mi, some se =>
    let dtv : DT := ⟨y, mo, da, ho, mi, se⟩
    if validDT dtv then some dtv else Option.none
  | _, _, _, _, _, _ => Option.none

/-- The character-level body of the parser. -/
def parseDTChars : List Char → Option DT
  | [y1, y2, y3, y4, p1, m1, m2, p2, d1, d2, p3,
     h1, h2, p4, n1, n2, p5, e1, e2] =>
    if p1 = '-' ∧ p2 = '-' ∧ p3 = 'T' ∧ p4 = ':' ∧ p5 = ':' then
      mkDT (read4 y1 y2 y3 y4) (read2 m1 m2) (read2 d1 d2)
        (read2 h1 h2) (read2 n1 n2) (read2 e1 e2)
    else Option.none
  | _ => Option.none

/-- `datetime.strptime(s, "%Y-%m-%dT%H:%M:%S")`: four year digits, zero-padded
two-digit fields, literal separators, with `datetime`'s range validation. -/
def parseDT (s : String) : Option DT := parseDTChars s.data

/-- The two digit characters of a zero-padded two-digit field. -/
def pad2 (n : Nat) : List Char := [Nat.digitChar (n / 10), Nat.digitChar (n % 10)]

/-- The four digit characters of a zero-padded four-digit field. -/
def pad4 (n : Nat) : List Char :=
  [Nat.digitChar (n / 1000), Nat.digitChar (n / 100 % 10),
   Nat.digitChar (n / 10 % 10), Nat.digitChar (n % 10)]

/-- `d.strftime("%Y-%m-%dT%H:%M:%S")`. -/
def fmtDT (d : DT) : String :=
  ⟨pad4 d.year ++ ['-'] ++ pad2 d.month ++ ['-'] ++ pad2 d.day ++ ['T'] ++
    pad2 d.hour ++ [':'] ++ pad2 d.minute ++ [':'] ++ pad2 d.second⟩

/-- `str(d)` for a `datetime`: same fields with a space separator. -/
def fmtDTSpace (d : DT) : String :=
  ⟨pad4 d.year ++ ['-'] ++ pad2 d.month ++ ['-'] ++ pad2 d.day ++ [' '] ++
    pad2 d.hour ++ [':'] ++ pad2 d.minute ++ [':'] ++ pad2 d.second⟩

/-! ## Python builtins used by the coercion tables -/

/-- `str(v)` (floats are shown with their rational value; no claim formats a
float, so the precise CPython float repr is not needed). -/
def PyVal.pyStr : PyVal → String
  | .int n => toString n
  | .float q => toString q
  | .str s => s
  | .bool b => if b then "True" else "False"
  | .none => "None"
  | .dt d => fmtDTSpace d

/-- Python truthiness, `bool(v)`. -/
def PyVal.truthy : PyVal → Bool
  | .int n => n ≠ 0
  | .float q => q ≠ 0
  | .str s => s ≠ ""
  | .bool b => b
  | .none => false
  | .dt _ => true

/-- The digits of a decimal literal, as a value. -/
def readDigits : List Char → Option Nat
  | [] => Option.none
  | [c] => digitVal c
  | c :: rest => match digitVal c, readDigits rest with
    | some d, some n => some (d * 10 ^ rest.length + n)
    | _, _ => Option.none

/-- `int(s)` on a string: optional sign then decimal digits (CPython also
strips whitespace and allows underscores; no value in this development uses
either). -/
def parseIntStr (s : String) : Option Int :=
  match s.data with
  | '-' :: rest => (readDigits rest).map (fun n => -(n : Int))
  | '+' :: rest => (readDigits rest).map (fun n => (n : Int))
  | l => (readDigits l).map (fun n => (n : Int))

/-- The Python builtin `int(v)` (used as the coercion for `id`, `version`,
`campaign_id`).  On a float it truncates toward zero; on a non-numeric string
it raises `ValueError`; on `None` or a `datetime` it raises `TypeError`. -/
def pyInt : PyVal → Except PyErr Int
  | .int n => .ok n
  | .bool b => .ok (if b then 1 else 0)
  | .float q => .ok (q.num / (q.den : Int))
  | .str s => match parseIntStr s with
    | some n => .ok n
    | Option.none => .error (.valueError ("invalid literal for int: " ++ s))
  | v => .error (.typeError ("int() argument: " ++ v.pyStr))

/-- Digits of a nonnegative decimal literal interpreted with a scale. -/
def readFrac : List Char → Option (Nat × Nat)
  | [] => Option.none
  | l => (readDigits l).map (fun n => (n, l.length))

/-- The Python builtin `float(v)` (the coercion for `total_budget`).  String
parsing covers plain decimal literals (CPython additionally accepts exponents,
`inf`, `nan`; no claim exercises those). -/
def pyFloat : PyVal → Except PyErr Rat
  | .int n => .ok (n : Rat)
  | .bool b => .ok (if b then 1 else 0)
  | .float q => .ok q
  | .str s =>
    let core : List Char → Option Rat := fun l =>
      match l.splitOn '.' with
      | [w] => (readDigits w).map (fun n => (n : Rat))
      | [w, f] => match readDigits w, readFrac f with
        | some n, some (m, k) => some ((n : Rat) + (m : Rat) / ((10 : Rat) ^ k))
        | _, _ => Option.none
      | _ => Option.none
    let r : Option Rat := match s.data with
      | '-' :: rest => (core rest).map (fun q => -q)
      | '+' :: rest => core rest
      | l => core l
    match r with
    | some q => .ok q
    | Option.none => .error (.valueError ("could not convert string to float: " ++ s))
  | v => .error (.typeError ("float() argument: " ++ v.pyStr))

/-- A coercion function from a `_pull`/`_push` table: it may raise. -/
abbrev Coercion := PyVal → Except PyErr PyVal

/-- `int` as a table entry. -/
def pyIntFn : Coercion := fun v => (pyInt v).map PyVal.int

/-- `float` as a table entry. -/
def pyFloatFn : Coercion := fun v => (pyFloat v).map PyVal.float

/-- `Entity._int_to_bool` (entity.py lines 96-98): `bool(int(value))`
(`t1types.int_to_bool`, referenced by budgetflight.py, is the same function
per the spec's coercion-kind list §4.1). -/
def intToBoolFn : Coercion := fun v => (pyInt v).map (fun n => PyVal.bool (n ≠ 0))

/-- `Entity._none_to_empty` (entity.py lines 100-104). -/
def noneToEmptyFn : Coercion := fun v =>
  match v with
  | .none => .ok (.str "")
  | _ => .ok v

/-- `Entity._enum` (entity.py lines 106-113): membership test with default. -/
def enumFn (allVars : List PyVal) (default : PyVal) : Coercion := fun v =>
  if v ∈ allVars then .ok v else .ok default

/-- `Entity._default_empty` (entity.py lines 115-122): default on falsy. -/
def defaultEmptyFn (default : PyVal) : Coercion := fun v =>
  if v.truthy then .ok v else .ok default

/-- `Entity._strpt` (entity.py lines 124-128): identity on a `datetime`,
`datetime.strptime` on anything else (a non-string argument to `strptime`
raises `TypeError`).  `t1types.strpt`, referenced by budgetflight.py, is the
same parser per the spec's coercion-kind list §4.1. -/
def strptFn : Coercion := fun v =>
  match v with
  | .dt d => .ok (.dt d)
  | .str s => match parseDT s with
    | some d => .ok (.dt d)
    | Option.none => .error (.valueError ("time data " ++ s ++ " does not match format"))
  | w => .error (.typeError ("strptime() argument 1 must be str, not " ++ w.pyStr))

/-- `Entity._strft` (entity.py lines 130-132): `ti.strftime(...)`; a value
without a `strftime` method raises `AttributeError`. -/
def strftFn : Coercion := fun v =>
  match v with
  | .dt d => .ok (.str (fmtDT d))
  | _ => .error (.attributeError "strftime")

/-- `Entity._valid_id` (entity.py lines 134-142): `int(id_)` under a
`try`/`except (ValueError, TypeError)` returning `False`, then `False` for
values below 1.  `pyInt` raises exactly those two error kinds. -/
def validId (v : PyVal) : Bool :=
  match pyInt v with
  | .ok n => decide (1 ≤ n)
  | .error _ => false

/-! ## Entity kinds

An entity kind is the static per-class configuration: the collection name and
the `_readonly` / `_readonly_update` / `_relations` / `_pull` / `_push`
tables.  A `_pull` (or `_push`) dict maps a field name either to a coercion
function or to `None` (budgetflight.py maps `name`, `currency_code`,
`zone_name` to `None`), so a table is an association list whose values are
`Option Coercion`: an absent key and a key mapped to `Option.none` behave
alike under `dict.get(k) is not None` but differently under `k in dict`. -/

/-- A `_pull`/`_push` table. -/
abbrev CoTable := List (String × Option Coercion)

/-- `k in table`: the entry for a key, distinguishing an absent key
(`Option.none`) from a key mapped to Python `None` (`some Option.none`). -/
def tableEntry : CoTable → String → Option (Option Coercion)
  | [], _ => Option.none
  | (k', f) :: t, k => if k' = k then some f else tableEntry t k

/-- `table.get(k)` compared with `None`: the coercion function, if the key is
present and mapped to a function. -/
def tableGet (t : CoTable) (k : String) : Option Coercion :=
  match tableEntry t k with
  | some (some f) => some f
  | _ => Option.none

/-- The static configuration of one entity class. -/
structure EntityKind where
  collection : String
  readonly : List String
  readonlyUpdate : List String
  relations : List String
  pull : CoTable
  push : CoTable

/-! ## Attribute access and validation (entity.py) -/

/-- `Entity.__getattr__` (entity.py lines 78-82): the property value, else
`AttributeError` (the spec's `AttributeNotFound`). -/
def getattrFn (props : PData) (attrName : String) : Except PyErr PyVal :=
  match plookup props attrName with
  | some v => .ok v
  | Option.none => .error (.attributeError attrName)

/-- `Entity.__setattr__` (entity.py lines 83-87): if `_pull.get(attribute)` is
not `None`, store the `_pull`-coerced value, else store the raw value.  The
coercion itself may raise, leaving the mapping untouched. -/
def setattrFn (kind : EntityKind) (props : PData) (attrName : String)
    (value : PyVal) : Except PyErr PData :=
  match tableGet kind.pull attrName with
  | some f => (f value).map (fun w => pset props attrName w)
  | Option.none => .ok (pset props attrName value)

/-- The hydration loop of `Entity.__init__` (entity.py lines 46-50): for each
field of the given properties dict, overwrite it with its `_pull`-coerced
value when `_pull.get(attr)` is not `None` (each step rewrites only the
current key, so every value read is the original one). -/
def hydrate (kind : EntityKind) : PData → Except PyErr PData
  | [] => .ok []
  | (k, v) :: rest =>
    match tableGet kind.pull k with
    | some f =>
      match f v with
      | .ok w => (hydrate kind rest).map (fun r => (k, w) :: r)
      | .error e => .error e
    | Option.none => (hydrate kind rest).map (fun r => (k, v) :: r)

/-- `Entity.__init__` (entity.py lines 28-50): no properties yields an empty
mapping, otherwise the hydration loop runs over the given dict. -/
def initEntity (kind : EntityKind) : Option PData → Except PyErr PData
  | Option.none => .ok []
  | some properties => hydrate kind properties

/-- `Entity._validate_read` (entity.py lines 144-148): for each field whose
key is in `_pull` (`key in self._pull`, so a key mapped to `None` counts),
replace the value by `self._pull[key](value)` — calling the `None` entry
raises `TypeError`. -/
def validateRead (kind : EntityKind) : PData → Except PyErr PData
  | [] => .ok []
  | (k, v) :: rest =>
    match tableEntry kind.pull k with
    | some (some f) =>
      match f v with
      | .ok w => (validateRead kind rest).map (fun r => (k, w) :: r)
      | .error e => .error e
    | some Option.none => .error (.typeError "NoneType object is not callable")
    | Option.none => (validateRead kind rest).map (fun r => (k, v) :: r)

/-- The version-injection step of `Entity._validate_write` (entity.py lines
151-153): with `update = 'id' in self.properties`, if the payload has no
`version` and `update`, set `data['version'] = self.version` — reading
`self.version` through `__getattr__` (raising `AttributeError` when the
instance has no `version`). -/
def injectVersion (props data : PData) : Except PyErr PData :=
  let update := pmem props "id"
  if ¬ pmem data "version" ∧ update then
    match getattrFn props "version" with
    | .ok v => .ok (pset data "version" v)
    | .error e => .error e
  else .ok data

/-- The filtering loop of `Entity._validate_write` (entity.py lines 154-163),
iterating over a snapshot (`data.copy()`) while mutating `data`: drop keys in
`_readonly` or `_relations`, drop keys in `_readonly_update` when updating,
otherwise apply the `_push` coercion when `_push.get(key)` is not `None`.
The first component of the result is the final state of the dict, also when a
coercion raised part-way (the second component). -/
def vwLoop (kind : EntityKind) (update : Bool) :
    List (String × PyVal) → PData → PData × Option PyErr
  | [], data => (data, Option.none)
  | (key, value) :: rest, data =>
    if kind.readonly.contains key || kind.relations.contains key then
      vwLoop kind update rest (pdel data key)
    else if update && kind.readonlyUpdate.contains key then
      vwLoop kind update rest (pdel data key)
    else
      match tableGet kind.push key with
      | some f =>
        match f value with
        | .ok w => vwLoop kind update rest (pset data key w)
        | .error e => (data, some e)
      | Option.none => vwLoop kind update rest (pset data key value)

/-- `Entity._validate_write` (entity.py lines 150-164): version injection then
the filtering loop.  The first component is the final state of the (mutated)
payload dict, the second the exception, if one was raised. -/
def validateWrite (kind : EntityKind) (props data : PData) : PData × Option PyErr :=
  match injectVersion props data with
  | .error e => (data, some e)
  | .ok data' => vwLoop kind (pmem props "id") data' data'

/-- `Entity._update_self` (entity.py lines 166-168): apply each field of the
server-returned entity through `setattr`; a coercion failure part-way leaves
the fields already processed applied. -/
def updateSelf (kind : EntityKind) : PData → List (String × PyVal) → PData × Option PyErr
  | props, [] => (props, Option.none)
  | props, (k, v) :: rest =>
    match setattrFn kind props k v with
    | .ok props' => updateSelf kind props' rest
    | .error e => (props, some e)

/-- The outcome of a `save` call: the final state of the instance's property
mapping, the requests issued to the transport (`(url, payload)` pairs), and
the exception, if one was raised. -/
structure SaveOut where
  props : PData
  requests : List (String × PData)
  error : Option PyErr
  deriving DecidableEq, Repr

/-- The transport collaborator `Connection._post`: decoded body is the list of
returned entity dicts (the entity count of the pair it returns is unused by
`save`). -/
abbrev Transport := String → PData → Except PyErr (List PData)

/-- The URL of `Entity.save` (entity.py lines 175-178): an id segment is
appended when `self.properties.get('id')` is truthy. -/
def entityUrl (apiBase : String) (kind : EntityKind) (props : PData) : String :=
  match plookup props "id" with
  | some v =>
    if v.truthy then String.intercalate "/" [apiBase, kind.collection, v.pyStr]
    else String.intercalate "/" [apiBase, kind.collection]
  | Option.none => String.intercalate "/" [apiBase, kind.collection]

/-- The transport-and-apply tail shared by `Entity.save` (entity.py lines
183-184, `next(iter(entity))`, raising `StopIteration` on an empty body) and
`SubEntity.save` (entity.py lines 208-209, `[0][0]`, raising `IndexError`):
issue the request, then apply the first returned entity via `_update_self`. -/
def postAndUpdate (kind : EntityKind) (url : String) (props payload : PData)
    (post : Transport) (emptyErr : PyErr) : SaveOut :=
  match post url payload with
  | .error e => ⟨props, [(url, payload)], some e⟩
  | .ok entities =>
    match entities.head? with
    | Option.none => ⟨props, [(url, payload)], some emptyErr⟩
    | some ent =>
      let r := updateSelf kind props ent
      ⟨r.1, [(url, payload)], r.2⟩

/-- `Entity.save` (entity.py lines 174-184).  With `data=None` the instance's
own property dict is passed to `_validate_write` and mutated by it in place,
so the mapping's final state is whatever the validation left (already on a
transport failure); with an explicit payload only that payload is mutated. -/
def saveEntity (apiBase : String) (kind : EntityKind) (props : PData)
    (data? : Option PData) (post : Transport) : SaveOut :=
  let url := entityUrl apiBase kind props
  match data? with
  | some d =>
    match validateWrite kind props d with
    | (_, some e) => ⟨props, [], some e⟩
    | (payload, Option.none) => postAndUpdate kind url props payload post .stopIteration
  | Option.none =>
    match validateWrite kind props props with
    | (state, some e) => ⟨state, [], some e⟩
    | (payload, Option.none) => postAndUpdate kind url payload payload post .stopIteration

/-- Modelled from the spec: the `parent_id` resolution of `SubEntity` is not
among the sources (only its caller `SubEntity.save` is).  Per spec §4.6/§8,
resolving the parent identifier fails with `ClientError`
"&lt;Parent&gt; ID not given" when it is not set (spec §3: "resolved non-empty"),
and otherwise yields it as a string for the URL path. -/
def parentId (parent : String) (props : PData) : Except PyErr String :=
  match plookup props (parent ++ "_id") with
  | some v =>
    if v = PyVal.none then .error (.clientError (parent.capitalize ++ " ID not given"))
    else .ok v.pyStr
  | Option.none => .error (.clientError (parent.capitalize ++ " ID not given"))

/-- `'/'.join(parts)` over Python values: every part must be a `str`, else
`TypeError` (in `SubEntity.save`'s update branch, `self.id` is passed to the
join unconverted). -/
def joinVals (parts : List PyVal) : Except PyErr String :=
  match parts.mapM (fun v => match v with
    | PyVal.str s => Except.ok s
    | _ => Except.error (PyErr.typeError "sequence item: expected str instance")) with
  | .ok l => .ok (String.intercalate "/" l)
  | .error e => .error e

/-- The URL of `SubEntity.save` (entity.py lines 198-203): both branches
resolve `self.parent_id` before a path exists; in the update branch `self.id`
is handed to the join unconverted, so a non-string id raises `TypeError`
inside the join. -/
def subUrl (apiBase parent : String) (kind : EntityKind) (props : PData) :
    Except PyErr String :=
  match plookup props "id" with
  | some v =>
    if v.truthy then
      match parentId parent props with
      | .error e => .error e
      | .ok pid =>
        joinVals [PyVal.str apiBase, PyVal.str parent, PyVal.str pid,
                  PyVal.str kind.collection, v]
    else
      match parentId parent props with
      | .error e => .error e
      | .ok pid =>
        .ok (String.intercalate "/" [apiBase, parent, pid, kind.collection])
  | Option.none =>
    match parentId parent props with
    | .error e => .error e
    | .ok pid =>
      .ok (String.intercalate "/" [apiBase, parent, pid, kind.collection])

/-- `SubEntity.save` (entity.py lines 196-209): the URL threads through the
parent collection and parent id; the response is consumed as
`self._post(url, data=data)[0][0]` (an `IndexError` on an empty body). -/
def saveSub (apiBase parent : String) (kind : EntityKind) (props : PData)
    (data? : Option PData) (post : Transport) : SaveOut :=
  match subUrl apiBase parent kind props with
  | .error e => ⟨props, [], some e⟩
  | .ok url =>
    match data? with
    | some d =>
      match validateWrite kind props d with
      | (_, some e) => ⟨props, [], some e⟩
      | (payload, Option.none) => postAndUpdate kind url props payload post .indexError
    | Option.none =>
      match validateWrite kind props props with
      | (state, some e) => ⟨state, [], some e⟩
      | (payload, Option.none) => postAndUpdate kind url payload payload post .indexError

/-! ## BudgetFlight (budgetflight.py) -/

/-- `v.copy()` on a property value: every value a coercion table can produce
(int, float, str, bool, `None`, `datetime`) lacks a `copy` method, so the
attribute access raises. -/
def copyMethod (_v : PyVal) : Except PyErr PyVal :=
  .error (.attributeError "copy")

/-- `BudgetFlight.save` (budgetflight.py lines 41-51).  After the
`campaign_id` guard (an `AttributeError` from the explicit `__getattr__` call
is turned into `ClientError`), the path is built via `_get_path`
(`'campaigns/{}/'.format(self.campaign_id)` prefixed to
`Connection._construct_url()`, the latter an external collaborator passed in
as `constructUrl`).  With `data=None` it reads `self._properties` — an
attribute that does not exist (`Entity` stores the mapping under
`properties`), so `__getattr__` raises.  In every remaining case the call
`super().save(data=data, url=url)` passes a `url` keyword that
`Entity.save(self, data=None)` (entity.py line 174) does not accept, raising
`TypeError` before the superclass body runs — so the transport is never
consulted. -/
def bfSave (props : PData) (constructUrl : String) (data? : Option PData)
    (_post : Transport) : SaveOut :=
  match getattrFn props "campaign_id" with
  | .error _ => ⟨props, [], some (.clientError "campaign_id not specified")⟩
  | .ok cid =>
    let _url := "campaigns/" ++ cid.pyStr ++ "/" ++ constructUrl
    match data? with
    | Option.none =>
      match getattrFn props "_properties" with
      | .error e => ⟨props, [], some e⟩
      | .ok v =>
        match copyMethod v with
        | .error e => ⟨props, [], some e⟩
        | .ok _ =>
          ⟨props, [], some (.typeError "save() got an unexpected keyword argument: url")⟩
    | some _ =>
      ⟨props, [], some (.typeError "save() got an unexpected keyword argument: url")⟩

/-! ## Concrete entity kinds -/

/-- `Entity._readonly` (entity.py lines 24-26). -/
def entityReadonly : List String :=
  ["id", "build_date", "created_on", "_type", "updated_on", "last_modified"]

/-- A minimal concrete `Entity` subclass: the base `_readonly`, the base empty
`_readonly_update`, no relations, empty coercion tables. -/
def demoKind : EntityKind :=
  { collection := "widgets"
    readonly := entityReadonly
    readonlyUpdate := []
    relations := []
    pull := []
    push := [] }

/-- A kind in the repository's style where `_push` overrides `_pull` for a
date field (models that pull with `strpt` and push with `strft`), so the two
tables differ at `start_date`. -/
def mixedKind : EntityKind :=
  { collection := "things"
    readonly := entityReadonly
    readonlyUpdate := []
    relations := []
    pull := [("start_date", some strptFn)]
    push := [("start_date", some strftFn)] }

/-- `BudgetFlight` (budgetflight.py lines 10-33): `_pull` with `None` entries
for `name`, `currency_code`, `zone_name`; `_push = _pull.copy()`;
`_readonly = Entity._readonly | {'campaign_id', 'zone_name', 'is_relevant',
'currency_code'}`; `_relations = {'campaign'}`. -/
def budgetFlight : EntityKind :=
  { collection := "budget_flights"
    readonly := entityReadonly ++ ["campaign_id", "zone_name", "is_relevant", "currency_code"]
    readonlyUpdate := []
    relations := ["campaign"]
    pull :=
      [("campaign_id", some pyIntFn), ("created_on", some strptFn),
       ("id", some pyIntFn), ("name", Option.none),
       ("updated_on", some strptFn), ("version", some pyIntFn),
       ("currency_code", Option.none), ("zone_name", Option.none),
       ("is_relevant", some intToBoolFn), ("start_date", some strptFn),
       ("end_date", some strptFn), ("total_budget", some pyFloatFn)]
    push :=
      [("campaign_id", some pyIntFn), ("created_on", some strptFn),
       ("id", some pyIntFn), ("name", Option.none),
       ("updated_on", some strptFn), ("version", some pyIntFn),
       ("currency_code", Option.none), ("zone_name", Option.none),
       ("is_relevant", some intToBoolFn), ("start_date", some strptFn),
       ("end_date", some strptFn), ("total_budget", some pyFloatFn)]
    }

/-- A key the filtering loop is required to drop: in `_readonly` or
`_relations`, or in `_readonly_update` while updating. -/
def droppedKey (kind : EntityKind) (update : Bool) (k : String) : Bool :=
  kind.readonly.contains k || kind.relations.contains k ||
    (update && kind.readonlyUpdate.contains k)

/-! ## Basic dictionary lemmas -/

theorem plookup_pset_self (d : PData) (k : String) (v : PyVal) :
    plookup (pset d k v) k = some v := by
  induction d with
  | nil => simp [pset, plookup]
  | cons hd t ih =>
    obtain ⟨k', v'⟩ := hd
    by_cases h : k' = k
    · simp [pset, plookup, h]
    · simp [pset, plookup, h, ih]

theorem plookup_pset_ne (d : PData) (k k' : String) (v : PyVal) (h : k' ≠ k) :
    plookup (pset d k' v) k = plookup d k := by
  induction d with
  | nil => simp [pset, plookup, h]
  | cons hd t ih =>
    obtain ⟨k0, v0⟩ := hd
    by_cases h0 : k0 = k'
    · subst h0
      simp [pset, plookup, h]
    · simp only [pset, if_neg h0, plookup]
      by_cases h1 : k0 = k
      · simp [h1]
      · simp [h1, ih]

theorem plookup_pdel_self (d : PData) (k : String) :
    plookup (pdel d k) k = Option.none := by
  induction d with
  | nil => simp [pdel, plookup]
  | cons hd t ih =>
    obtain ⟨k0, v0⟩ := hd
    by_cases h0 : k0 = k
    · simpa [pdel, h0] using ih
    · simpa [pdel, plookup, h0] using ih

theorem plookup_pdel_ne (d : PData) (k k' : String) (h : k' ≠ k) :
    plookup (pdel d k') k = plookup d k := by
  induction d with
  | nil => simp [pdel, plookup]
  | cons hd t ih =>
    obtain ⟨k0, v0⟩ := hd
    by_cases h0 : k0 = k'
    · subst h0
      have hk : k0 ≠ k := h
      simp [pdel, plookup, hk, ih]
    · by_cases h1 : k0 = k
      · simp [pdel, plookup, h0, h1, Ne.symm h]
      · simp [pdel, plookup, h0, h1, ih]

theorem plookup_isSome_iff_mem_pkeys (d : PData) (k : String) :
    (plookup d k).isSome = true ↔ k ∈ pkeys d := by
  induction d with
  | nil => simp [plookup, pkeys]
  | cons hd t ih =>
    obtain ⟨k0, v0⟩ := hd
    by_cases h0 : k0 = k
    · simp [plookup, pkeys, h0]
    · simp [plookup, pkeys, h0, ih, Ne.symm h0]

theorem plookup_eq_some_mem (d : PData) (k : String) (v : PyVal)
    (h : plookup d k = some v) : (k, v) ∈ d := by
  induction d with
  | nil => simp [plookup] at h
  | cons hd t ih =>
    obtain ⟨k0, v0⟩ := hd
    by_cases h0 : k0 = k
    · subst h0
      simp [plookup] at h
      simp [h]
    · simp [plookup, h0] at h
      exact List.mem_cons_of_mem _ (ih h)

theorem pkeys_pset_nodup (d : PData) (k : String) (v : PyVal)
    (h : (pkeys d).Nodup) : (pkeys (pset d k v)).Nodup := by
  induction d with
  | nil => simp [pset, pkeys]
  | cons hd t ih =>
    obtain ⟨k0, v0⟩ := hd
    simp only [pkeys, List.map_cons, List.nodup_cons] at h
    by_cases h0 : k0 = k
    · simpa [pset, pkeys, h0] using h
    · have hk0 : k0 ∉ pkeys (pset t k v) := by
        intro hmem
        rw [← plookup_isSome_iff_mem_pkeys] at hmem
        rw [plookup_pset_ne t k0 k v (fun hkk => h0 hkk.symm)] at hmem
        rw [plookup_isSome_iff_mem_pkeys] at hmem
        exact h.1 hmem
      simp only [pset, if_neg h0, pkeys, List.map_cons, List.nodup_cons]
      exact ⟨hk0, ih h.2⟩

/-! ## Invariants of the write-validation loop -/

theorem droppedKey_false (kind : EntityKind) (update : Bool) (k : String)
    (h : droppedKey kind update k = false) :
    (kind.readonly.contains k || kind.relations.contains k) = false ∧
    (update && kind.readonlyUpdate.contains k) = false := by
  unfold droppedKey at h
  rw [Bool.or_eq_false_iff] at h
  exact h

theorem vwLoop_lookup_notin_snap (kind : EntityKind) (update : Bool)
    (snap : List (String × PyVal)) (data : PData) (k : String)
    (h : k ∉ snap.map Prod.fst) :
    plookup (vwLoop kind update snap data).1 k = plookup data k := by
  induction snap generalizing data with
  | nil => simp [vwLoop]
  | cons hd rest ih =>
    obtain ⟨key, value⟩ := hd
    have hk : key ≠ k := by
      intro hkk
      exact h (by simp [hkk])
    have hrest : k ∉ rest.map Prod.fst := by
      intro hmem
      exact h (by simp [hmem])
    by_cases h1 : kind.readonly.contains key || kind.relations.contains key
    · simp only [vwLoop, h1, if_true]
      rw [ih _ hrest, plookup_pdel_ne _ _ _ hk]
    · by_cases h2 : update && kind.readonlyUpdate.contains key
      · simp only [vwLoop, h1, h2, Bool.false_eq_true, if_false, if_true]
        rw [ih _ hrest, plookup_pdel_ne _ _ _ hk]
      · simp only [vwLoop, h1, h2, Bool.false_eq_true, if_false]
        cases hpush : tableGet kind.push key with
        | some f =>
          cases hfv : f value with
          | ok w =>
            simp only [hpush, hfv]
            rw [ih _ hrest, plookup_pset_ne _ _ _ _ hk]
          | error e => simp only [hpush, hfv]
        | none =>
          simp only [hpush]
          rw [ih _ hrest, plookup_pset_ne _ _ _ _ hk]

theorem vwLoop_no_dropped (kind : EntityKind) (update : Bool)
    (snap : List (String × PyVal)) (data : PData)
    (hpre : ∀ k, droppedKey kind update k = true → pmem data k = true →
      k ∈ snap.map Prod.fst)
    (hok : (vwLoop kind update snap data).2 = Option.none) :
    ∀ k, droppedKey kind update k = true →
      pmem (vwLoop kind update snap data).1 k = false := by
  induction snap generalizing data with
  | nil =>
    intro k hdrop
    simp only [vwLoop]
    by_cases hm : pmem data k = true
    · exact absurd (hpre k hdrop hm) (by simp)
    · simpa using hm
  | cons hd rest ih =>
    obtain ⟨key, value⟩ := hd
    intro k hdrop
    by_cases h1 : kind.readonly.contains key || kind.relations.contains key
    · simp only [vwLoop, h1, if_true] at hok ⊢
      refine ih (pdel data key) ?_ hok k hdrop
      intro k' hdrop' hmem'
      have hkk : k' ≠ key := by
        intro hkk
        subst hkk
        simp [pmem, plookup_pdel_self] at hmem'
      have : pmem data k' = true := by
        simpa [pmem, plookup_pdel_ne _ _ _ (Ne.symm hkk)] using hmem'
      have := hpre k' hdrop' this
      simp only [List.map_cons, List.mem_cons] at this
      exact this.resolve_left hkk
    · by_cases h2 : update && kind.readonlyUpdate.contains key
      · simp only [vwLoop, h1, h2, Bool.false_eq_true, if_false, if_true] at hok ⊢
        refine ih (pdel data key) ?_ hok k hdrop
        intro k' hdrop' hmem'
        have hkk : k' ≠ key := by
          intro hkk
          subst hkk
          simp [pmem, plookup_pdel_self] at hmem'
        have : pmem data k' = true := by
          simpa [pmem, plookup_pdel_ne _ _ _ (Ne.symm hkk)] using hmem'
        have := hpre k' hdrop' this
        simp only [List.map_cons, List.mem_cons] at this
        exact this.resolve_left hkk
      · have hkeyok : droppedKey kind update key = false := by
          unfold droppedKey
          rw [Bool.or_eq_false_iff]
          exact ⟨by simpa using h1, by simpa using h2⟩
        simp only [vwLoop, h1, h2, Bool.false_eq_true, if_false] at hok ⊢
        have step : ∀ w : PyVal,
            (vwLoop kind update rest (pset data key w)).2 = Option.none →
            pmem (vwLoop kind update rest (pset data key w)).1 k = false := by
          intro w hok'
          refine ih (pset data key w) ?_ hok' k hdrop
          intro k' hdrop' hmem'
          have hkk : k' ≠ key := by
            intro hkk
            subst hkk
            rw [hdrop'] at hkeyok
            exact absurd hkeyok (by simp)
          have : pmem data k' = true := by
            simpa [pmem, plookup_pset_ne _ _ _ _ (Ne.symm hkk)] using hmem'
          have := hpre k' hdrop' this
          simp only [List.map_cons, List.mem_cons] at this
          exact this.resolve_left hkk
        cases hpush : tableGet kind.push key with
        | some f =>
          cases hfv : f value with
          | ok w =>
            simp only [hpush, hfv] at hok ⊢
            exact step w hok
          | error e =>
            simp only [hpush, hfv] at hok
            exact absurd hok (by simp)
        | none =>
          simp only [hpush] at hok ⊢
          exact step value hok

theorem vwLoop_lookup_entry (kind : EntityKind) (update : Bool)
    (snap : List (String × PyVal)) (data : PData) (k : String) (v : PyVal)
    (hnodup : (snap.map Prod.fst).Nodup) (hmem : (k, v) ∈ snap)
    (hdrop : droppedKey kind update k = false)
    (hpush : tableGet kind.push k = Option.none)
    (hok : (vwLoop kind update snap data).2 = Option.none) :
    plookup (vwLoop kind update snap data).1 k = some v := by
  induction snap generalizing data with
  | nil => simp at hmem
  | cons hd rest ih =>
    obtain ⟨key, value⟩ := hd
    simp only [List.map_cons, List.nodup_cons] at hnodup
    by_cases hkk : key = k
    · subst hkk
      have hv : value = v := by
        rcases List.mem_cons.mp hmem with h | h
        · exact (Prod.mk.injEq _ _ _ _ ▸ h).2.symm
        · exact absurd (List.mem_map_of_mem Prod.fst h) hnodup.1
      subst hv
      obtain ⟨h1, h2⟩ := droppedKey_false _ _ _ hdrop
      simp only [vwLoop, h1, h2, Bool.false_eq_true, if_false, hpush]
      rw [vwLoop_lookup_notin_snap _ _ _ _ _ hnodup.1, plookup_pset_self]
    · have hmem' : (k, v) ∈ rest := by
        rcases List.mem_cons.mp hmem with h | h
        · exact absurd ((Prod.mk.injEq _ _ _ _ ▸ h).1.symm) hkk
        · exact h
      by_cases h1 : kind.readonly.contains key || kind.relations.contains key
      · simp only [vwLoop, h1, if_true] at hok ⊢
        exact ih _ hnodup.2 hmem' hok
      · by_cases h2 : update && kind.readonlyUpdate.contains key
        · simp only [vwLoop, h1, h2, Bool.false_eq_true, if_false, if_true] at hok ⊢
          exact ih _ hnodup.2 hmem' hok
        · simp only [vwLoop, h1, h2, Bool.false_eq_true, if_false] at hok ⊢
          cases hpush' : tableGet kind.push key with
          | some f =>
            cases hfv : f value with
            | ok w =>
              simp only [hpush', hfv] at hok ⊢
              exact ih _ hnodup.2 hmem' hok
            | error e =>
              simp only [hpush', hfv] at hok
              exact absurd hok (by simp)
          | none =>
            simp only [hpush'] at hok ⊢
            exact ih _ hnodup.2 hmem' hok

/-! ## Hydration and read-validation helpers -/

theorem hydrate_lookup_fn (kind : EntityKind) (data out : PData) (k : String)
    (v : PyVal) (f : Coercion) (h : hydrate kind data = .ok out)
    (hl : plookup data k = some v) (hf : tableGet kind.pull k = some f) :
    ∃ w, f v = .ok w ∧ plookup out k = some w := by
  induction data generalizing out with
  | nil => simp [plookup] at hl
  | cons hd rest ih =>
    obtain ⟨k0, v0⟩ := hd
    by_cases hk : k0 = k
    · subst hk
      simp [plookup] at hl
      subst hl
      simp only [hydrate, hf] at h
      cases hfv : f v0 with
      | ok w =>
        simp only [hfv, Except.map] at h
        cases hr : hydrate kind rest with
        | ok r =>
          simp only [hr, Except.map] at h
          cases h
          exact ⟨w, rfl, by simp [plookup]⟩
        | error e => simp [hr, Except.map] at h
      | error e => simp [hfv, Except.map] at h
    · simp [plookup, hk] at hl
      simp only [hydrate] at h
      cases hg : tableGet kind.pull k0 with
      | some f0 =>
        simp only [hg] at h
        cases hfv : f0 v0 with
        | ok w0 =>
          simp only [hfv, Except.map] at h
          cases hr : hydrate kind rest with
          | ok r =>
            simp only [hr, Except.map] at h
            cases h
            obtain ⟨w, hw, hlw⟩ := ih r hr hl
            exact ⟨w, hw, by simpa [plookup, hk] using hlw⟩
          | error e => simp [hr, Except.map] at h
        | error e => simp [hfv, Except.map] at h
      | none =>
        simp only [hg] at h
        cases hr : hydrate kind rest with
        | ok r =>
          simp only [hr, Except.map] at h
          cases h
          obtain ⟨w, hw, hlw⟩ := ih r hr hl
          exact ⟨w, hw, by simpa [plookup, hk] using hlw⟩
        | error e => simp [hr, Except.map] at h

theorem hydrate_lookup_none (kind : EntityKind) (data out : PData) (k : String)
    (h : hydrate kind data = .ok out) (hf : tableGet kind.pull k = Option.none) :
    plookup out k = plookup data k := by
  induction data generalizing out with
  | nil =>
    simp only [hydrate] at h
    cases h
    rfl
  | cons hd rest ih =>
    obtain ⟨k0, v0⟩ := hd
    simp only [hydrate] at h
    cases hg : tableGet kind.pull k0 with
    | some f0 =>
      simp only [hg] at h
      cases hfv : f0 v0 with
      | ok w0 =>
        simp only [hfv, Except.map] at h
        cases hr : hydrate kind rest with
        | ok r =>
          simp only [hr, Except.map] at h
          cases h
          by_cases hk : k0 = k
          · subst hk
            rw [hg] at hf
            exact absurd hf (by simp)
          · simpa [plookup, hk] using ih r hr
        | error e => simp [hr, Except.map] at h
      | error e => simp [hfv, Except.map] at h
    | none =>
      simp only [hg] at h
      cases hr : hydrate kind rest with
      | ok r =>
        simp only [hr, Except.map] at h
        cases h
        by_cases hk : k0 = k
        · subst hk
          simp [plookup]
        · simpa [plookup, hk] using ih r hr
      | error e => simp [hr, Except.map] at h

theorem validateRead_error_of_noneEntry (kind : EntityKind) (data : PData)
    (k : String) (hentry : tableEntry kind.pull k = some Option.none)
    (hmem : pmem data k = true) : ∃ e, validateRead kind data = .error e := by
  induction data with
  | nil => simp [pmem, plookup] at hmem
  | cons hd rest ih =>
    obtain ⟨k0, v0⟩ := hd
    by_cases hk : k0 = k
    · subst hk
      simp [validateRead, hentry]
    · have hmem' : pmem rest k = true := by
        simpa [pmem, plookup, hk] using hmem
      obtain ⟨e, he⟩ := ih hmem'
      cases hg : tableEntry kind.pull k0 with
      | some o =>
        cases o with
        | some f =>
          cases hfv : f v0 with
          | ok w => exact ⟨e, by simp [validateRead, hg, hfv, he, Except.map]⟩
          | error e0 => exact ⟨e0, by simp [validateRead, hg, hfv]⟩
        | none => exact ⟨.typeError "NoneType object is not callable", by simp [validateRead, hg]⟩
      | none => exact ⟨e, by simp [validateRead, hg, he, Except.map]⟩

/-! ## Round-trip of the datetime format -/

theorem digitVal_digitChar (n : Nat) (h : n < 10) :
    digitVal (Nat.digitChar n) = some n := by
  interval_cases n <;> rfl

theorem read2_pad2 (n : Nat) (h : n < 100) :
    read2 (Nat.digitChar (n / 10)) (Nat.digitChar (n % 10)) = some n := by
  unfold read2
  rw [digitVal_digitChar (n / 10) (by omega), digitVal_digitChar (n % 10) (by omega)]
  simp only [Option.some.injEq]
  omega

theorem read4_pad4 (n : Nat) (h : n < 10000) :
    read4 (Nat.digitChar (n / 1000)) (Nat.digitChar (n / 100 % 10))
      (Nat.digitChar (n / 10 % 10)) (Nat.digitChar (n % 10)) = some n := by
  unfold read4
  rw [digitVal_digitChar (n / 1000) (by omega), digitVal_digitChar (n / 100 % 10) (by omega),
    digitVal_digitChar (n / 10 % 10) (by omega), digitVal_digitChar (n % 10) (by omega)]
  simp only [Option.some.injEq]
  omega

theorem daysInMonth_le (y m : Nat) : daysInMonth y m ≤ 31 := by
  unfold daysInMonth
  split
  · split <;> omega
  · split <;> omega

theorem parseDT_fmtDT (d : DT) (h : validDT d) : parseDT (fmtDT d) = some d := by
  obtain ⟨y, mo, da, ho, mi, se⟩ := d
  obtain ⟨h1, h2, h3, h4, h5, h6, h7, h8, h9⟩ := h
  simp only at h1 h2 h3 h4 h5 h6 h7 h8 h9
  have hdm : daysInMonth y mo ≤ 31 := daysInMonth_le y mo
  have hfmt : (fmtDT ⟨y, mo, da, ho, mi, se⟩).data =
      [Nat.digitChar (y / 1000), Nat.digitChar (y / 100 % 10),
       Nat.digitChar (y / 10 % 10), Nat.digitChar (y % 10), '-',
       Nat.digitChar (mo / 10), Nat.digitChar (mo % 10), '-',
       Nat.digitChar (da / 10), Nat.digitChar (da % 10), 'T',
       Nat.digitChar (ho / 10), Nat.digitChar (ho % 10), ':',
       Nat.digitChar (mi / 10), Nat.digitChar (mi % 10), ':',
       Nat.digitChar (se / 10), Nat.digitChar (se % 10)] := by
    simp [fmtDT, pad4, pad2]
  have hvalid : validDT ⟨y, mo, da, ho, mi, se⟩ := ⟨h1, h2, h3, h4, h5, h6, h7, h8, h9⟩
  unfold parseDT
  rw [hfmt]
  rw [show parseDTChars
      [Nat.digitChar (y / 1000), Nat.digitChar (y / 100 % 10),
       Nat.digitChar (y / 10 % 10), Nat.digitChar (y % 10), '-',
       Nat.digitChar (mo / 10), Nat.digitChar (mo % 10), '-',
       Nat.digitChar (da / 10), Nat.digitChar (da % 10), 'T',
       Nat.digitChar (ho / 10), Nat.digitChar (ho % 10), ':',
       Nat.digitChar (mi / 10), Nat.digitChar (mi % 10), ':',
       Nat.digitChar (se / 10), Nat.digitChar (se % 10)] =
      mkDT (read4 (Nat.digitChar (y / 1000)) (Nat.digitChar (y / 100 % 10))
              (Nat.digitChar (y / 10 % 10)) (Nat.digitChar (y % 10)))
        (read2 (Nat.digitChar (mo / 10)) (Nat.digitChar (mo % 10)))
        (read2 (Nat.digitChar (da / 10)) (Nat.digitChar (da % 10)))
        (read2 (Nat.digitChar (ho / 10)) (Nat.digitChar (ho % 10)))
        (read2 (Nat.digitChar (mi / 10)) (Nat.digitChar (mi % 10)))
        (read2 (Nat.digitChar (se / 10)) (Nat.digitChar (se % 10))) from by
    simp [parseDTChars]]
  rw [read4_pad4 y (by omega), read2_pad2 mo (by omega), read2_pad2 da (by omega),
    read2_pad2 ho (by omega), read2_pad2 mi (by omega), read2_pad2 se (by omega)]
  simp [mkDT, hvalid]

theorem pmem_false_iff (d : PData) (k : String) :
    pmem d k = false ↔ plookup d k = Option.none := by
  unfold pmem
  cases plookup d k <;> simp

theorem validateWrite_ok_eq (kind : EntityKind) (props data data' : PData)
    (hinj : injectVersion props data = .ok data') :
    validateWrite kind props data = vwLoop kind (pmem props "id") data' data' := by
  unfold validateWrite
  rw [hinj]

theorem validateWrite_error_eq (kind : EntityKind) (props data : PData)
    (e : PyErr) (hinj : injectVersion props data = .error e) :
    validateWrite kind props data = (data, some e) := by
  unfold validateWrite
  rw [hinj]

/-! ## The claims -/

/-- **C2**: for every entity kind and every input mapping, the mapping
returned by a successful write validation contains no field of the kind's
read-only set or relation set, and — the validation being update-shaped
(`'id' in self.properties`) — no field of the update-specific read-only
set. -/
theorem validate_write_excludes_readonly_and_relations (kind : EntityKind)
    (props data out : PData) (h : validateWrite kind props data = (out, Option.none))
    (k : String)
    (hk : kind.readonly.contains k = true ∨ kind.relations.contains k = true ∨
      (pmem props "id" = true ∧ kind.readonlyUpdate.contains k = true)) :
    pmem out k = false := by
  have hdrop : droppedKey kind (pmem props "id") k = true := by
    unfold droppedKey
    rcases hk with h1 | h1 | ⟨h1, h2⟩
    · rw [h1, Bool.true_or, Bool.true_or]
    · rw [h1, Bool.or_true, Bool.true_or]
    · rw [h1, h2, Bool.true_and, Bool.or_true]
  cases hinj : injectVersion props data with
  | error e =>
    rw [validateWrite_error_eq kind props data e hinj] at h
    exact absurd (congrArg Prod.snd h) (by simp)
  | ok data' =>
    rw [validateWrite_ok_eq kind props data data' hinj] at h
    have hok : (vwLoop kind (pmem props "id") data' data').2 = Option.none := by
      rw [h]
    have := vwLoop_no_dropped kind (pmem props "id") data' data'
      (fun k' _ hm => by
        rw [pmem] at hm
        rw [plookup_isSome_iff_mem_pkeys] at hm
        exact hm)
      hok k hdrop
    rwa [h] at this

/-- **C2 witness**: validating `{'campaign_id': 7, 'name': 'x'}` against a
persisted BudgetFlight yields a payload without the read-only
`campaign_id`. -/
theorem validate_write_excludes_readonly_and_relations_witness :
    pmem [("name", PyVal.str "x"), ("version", PyVal.int 3)] "campaign_id" = false :=
  validate_write_excludes_readonly_and_relations budgetFlight
    [("id", PyVal.int 1), ("version", PyVal.int 3)]
    [("campaign_id", PyVal.int 7), ("name", PyVal.str "x")]
    [("name", PyVal.str "x"), ("version", PyVal.int 3)]
    (by decide) "campaign_id" (Or.inl (by decide))

/-- **C3 counterexample**: the injection condition reads the *instance's*
properties, not the payload.  First conjunct: the payload contains `id` and
lacks `version`, yet nothing is injected (the instance has no `id`).  Second
conjunct: the payload omits `id`, yet `version` is injected (the instance has
an `id`). -/
theorem version_injection_payload_id_counterexample :
    validateWrite demoKind [("version", PyVal.int 9)] [("id", PyVal.int 5)] =
      ([], Option.none) ∧
    validateWrite demoKind [("id", PyVal.int 1), ("version", PyVal.int 9)]
      [("name", PyVal.str "x")] =
      ([("name", PyVal.str "x"), ("version", PyVal.int 9)], Option.none) := by
  constructor
  · rfl
  · rfl

/-- **C3 amended**: write validation injects the instance's current `version`
value into the outgoing payload exactly when the *instance's property
mapping* contains an `id` field and the payload lacks a `version` field; when
the instance's mapping has no `id`, no `version` is ever injected.  (Stated
for payloads with distinct keys on which validation succeeds and whose kind
does not itself drop or coerce `version`, which holds for every kind in the
repository.) -/
theorem version_injection_follows_instance_id (kind : EntityKind)
    (props data : PData) (v : PyVal) (hnodup : (pkeys data).Nodup)
    (hnov : pmem data "version" = false)
    (hdrop : droppedKey kind (pmem props "id") "version" = false)
    (hpush : tableGet kind.push "version" = Option.none)
    (hok : (validateWrite kind props data).2 = Option.none) :
    (pmem props "id" = false →
      plookup (validateWrite kind props data).1 "version" = Option.none) ∧
    (pmem props "id" = true → plookup props "version" = some v →
      plookup (validateWrite kind props data).1 "version" = some v) := by
  constructor
  · intro hid
    have hinj : injectVersion props data = .ok data := by
      unfold injectVersion
      rw [if_neg]
      intro hc
      rw [hid] at hc
      exact absurd hc.2 (by simp)
    rw [validateWrite_ok_eq kind props data data hinj]
    have hnotin : "version" ∉ data.map Prod.fst := by
      rw [pmem_false_iff] at hnov
      intro hmem
      have hmem2 : "version" ∈ pkeys data := hmem
      rw [← plookup_isSome_iff_mem_pkeys] at hmem2
      rw [hnov] at hmem2
      exact absurd hmem2 (by simp)
    rw [vwLoop_lookup_notin_snap kind _ data data "version" hnotin]
    rw [pmem_false_iff] at hnov
    exact hnov
  · intro hid hv
    have hinj : injectVersion props data = .ok (pset data "version" v) := by
      unfold injectVersion getattrFn
      rw [if_pos ⟨by simp [hnov], hid⟩, hv]
    rw [validateWrite_ok_eq kind props data _ hinj] at hok ⊢
    refine vwLoop_lookup_entry kind _ _ _ "version" v ?_ ?_ hdrop hpush hok
    · exact pkeys_pset_nodup data "version" v hnodup
    · exact plookup_eq_some_mem _ _ _ (plookup_pset_self data "version" v)

/-- **C3 amended witness**: a persisted instance (`id`, `version` set) and a
payload without `version`: the validated payload carries the instance's
version. -/
theorem version_injection_follows_instance_id_witness :
    plookup (validateWrite demoKind [("id", PyVal.int 1), ("version", PyVal.int 7)]
      [("name", PyVal.str "x")]).1 "version" = some (PyVal.int 7) :=
  (version_injection_follows_instance_id demoKind
    [("id", PyVal.int 1), ("version", PyVal.int 7)] [("name", PyVal.str "x")]
    (PyVal.int 7) (by decide) (by decide) (by decide) (by rfl) (by decide)).2
    (by decide) (by decide)

/-- **C6**: write validation for an instance whose property mapping contains
`id` but no `version`, on a payload lacking `version`, raises
`AttributeError` for `version` (from `__getattr__`) rather than silently
omitting it; the payload dict is left untouched. -/
theorem validate_write_missing_version_raises (kind : EntityKind)
    (props data : PData) (hid : pmem props "id" = true)
    (hver : pmem props "version" = false) (hdv : pmem data "version" = false) :
    validateWrite kind props data = (data, some (.attributeError "version")) := by
  rw [pmem_false_iff] at hver
  have hinj : injectVersion props data = .error (.attributeError "version") := by
    unfold injectVersion getattrFn
    rw [if_pos ⟨by simp [hdv], hid⟩, hver]
  exact validateWrite_error_eq kind props data _ hinj

/-- **C6 witness**: an instance hydrated with only an `id`. -/
theorem validate_write_missing_version_raises_witness :
    validateWrite demoKind [("id", PyVal.int 1)] [("name", PyVal.str "x")] =
      ([("name", PyVal.str "x")], some (.attributeError "version")) :=
  validate_write_missing_version_raises demoKind [("id", PyVal.int 1)]
    [("name", PyVal.str "x")] (by decide) (by decide) (by decide)

theorem saveEntity_validate_err (apiBase : String) (kind : EntityKind)
    (props d payload : PData) (e : PyErr) (post : Transport)
    (hvw : validateWrite kind props d = (payload, some e)) :
    saveEntity apiBase kind props (some d) post = ⟨props, [], some e⟩ := by
  simp only [saveEntity]
  rw [hvw]

theorem saveEntity_validate_ok (apiBase : String) (kind : EntityKind)
    (props d payload : PData) (post : Transport)
    (hvw : validateWrite kind props d = (payload, Option.none)) :
    saveEntity apiBase kind props (some d) post =
      postAndUpdate kind (entityUrl apiBase kind props) props payload post
        .stopIteration := by
  simp only [saveEntity]
  rw [hvw]

theorem postAndUpdate_error (kind : EntityKind) (url : String)
    (props payload : PData) (post : Transport) (emptyErr : PyErr) (e : PyErr)
    (hp : post url payload = .error e) :
    postAndUpdate kind url props payload post emptyErr =
      ⟨props, [(url, payload)], some e⟩ := by
  unfold postAndUpdate
  rw [hp]

theorem saveSub_url_error (apiBase parent : String) (kind : EntityKind)
    (props : PData) (data? : Option PData) (post : Transport) (e : PyErr)
    (hu : subUrl apiBase parent kind props = .error e) :
    saveSub apiBase parent kind props data? post = ⟨props, [], some e⟩ := by
  unfold saveSub
  rw [hu]

/-- **C1 counterexample**: `save(None)` on a persisted instance passes the
instance's own property dict into `_validate_write`, which mutates it in
place (here: the read-only `id` is deleted) before the transport call; a
failing transport call therefore raises while the property mapping differs
from its state before the call. -/
theorem save_none_transport_failure_mutates_properties :
    (saveEntity "api" demoKind
        [("id", PyVal.int 1), ("version", PyVal.int 2), ("name", PyVal.str "x")]
        Option.none (fun _ _ => .error (.clientError "Bad Request"))) =
      ⟨[("version", PyVal.int 2), ("name", PyVal.str "x")],
       [("api/widgets/1", [("version", PyVal.int 2), ("name", PyVal.str "x")])],
       some (.clientError "Bad Request")⟩ ∧
    [("version", PyVal.int 2), ("name", PyVal.str "x")] ≠
      [("id", PyVal.int 1), ("version", PyVal.int 2), ("name", PyVal.str "x")] := by
  constructor
  · rfl
  · decide

/-- **C1 amended**: when `save` is called with an explicit (non-`None`) data
payload and raises during write validation, version lookup, or because the
transport call fails, the instance's property mapping is unchanged.
`save(None)`, by contrast, validates the instance's own property mapping in
place, so on a transport failure the mapping can differ from its state before
the call (read-only fields removed, `version` injected, write-coercions
applied) — see the counterexample. -/
theorem save_explicit_data_failure_preserves_properties (apiBase : String)
    (kind : EntityKind) (props data : PData) (post : Transport)
    (hfail : ∀ u d, ∃ e, post u d = .error e) :
    (saveEntity apiBase kind props (some data) post).props = props ∧
    (saveEntity apiBase kind props (some data) post).error.isSome = true := by
  cases hvw : validateWrite kind props data with
  | mk payload err =>
    cases err with
    | some e =>
      rw [saveEntity_validate_err apiBase kind props data payload e post hvw]
      exact ⟨rfl, rfl⟩
    | none =>
      rw [saveEntity_validate_ok apiBase kind props data payload post hvw]
      obtain ⟨e, he⟩ := hfail (entityUrl apiBase kind props) payload
      rw [postAndUpdate_error kind _ props payload post .stopIteration e he]
      exact ⟨rfl, rfl⟩

/-- **C1 amended witness**: a transport that always fails leaves an explicit
payload save with the mapping intact. -/
theorem save_explicit_data_failure_preserves_properties_witness :
    (saveEntity "api" demoKind [("id", PyVal.int 1), ("version", PyVal.int 2)]
      (some [("name", PyVal.str "x")])
      (fun _ _ => .error (.clientError "Bad Request"))).props =
      [("id", PyVal.int 1), ("version", PyVal.int 2)] ∧
    (saveEntity "api" demoKind [("id", PyVal.int 1), ("version", PyVal.int 2)]
      (some [("name", PyVal.str "x")])
      (fun _ _ => .error (.clientError "Bad Request"))).error.isSome = true :=
  save_explicit_data_failure_preserves_properties "api" demoKind
    [("id", PyVal.int 1), ("version", PyVal.int 2)] [("name", PyVal.str "x")]
    (fun _ _ => .error (.clientError "Bad Request"))
    (fun _ _ => ⟨.clientError "Bad Request", rfl⟩)

/-- **C4** (the `parent_id` resolution itself is modelled from the spec, the
sources containing only its caller): a `SubEntity` whose parent identifier is
not set in its property mapping raises `ClientError` on `save`, with or
without an explicit data argument, for every transport — no URL is built and
no request is issued (the request list of the outcome is empty and the
outcome does not depend on the transport). -/
theorem subentity_save_missing_parent_raises_clienterror (apiBase parent : String)
    (kind : EntityKind) (props : PData) (data? : Option PData) (post : Transport)
    (h : plookup props (parent ++ "_id") = Option.none) :
    saveSub apiBase parent kind props data? post =
      ⟨props, [], some (.clientError (parent.capitalize ++ " ID not given"))⟩ := by
  have hpid : parentId parent props =
      .error (.clientError (parent.capitalize ++ " ID not given")) := by
    unfold parentId
    rw [h]
  have hu : subUrl apiBase parent kind props =
      .error (.clientError (parent.capitalize ++ " ID not given")) := by
    unfold subUrl
    cases hid : plookup props "id" with
    | none => rw [hpid]
    | some v =>
      cases ht : v.truthy with
      | true => simp only [ht, if_true, hpid]
      | false => simp only [ht, Bool.false_eq_true, if_false, hpid]
  exact saveSub_url_error apiBase parent kind props data? post _ hu

/-- **C4 witness**: a budget flight with no `campaign_id` saved under parent
collection `campaign`. -/
theorem subentity_save_missing_parent_raises_clienterror_witness :
    saveSub "api" "campaign" budgetFlight [("name", PyVal.str "x")] Option.none
      (fun _ _ => .ok []) =
      ⟨[("name", PyVal.str "x")], [],
       some (.clientError "Campaign ID not given")⟩ :=
  subentity_save_missing_parent_raises_clienterror "api" "campaign" budgetFlight
    [("name", PyVal.str "x")] Option.none (fun _ _ => .ok []) (by decide)

/-- **C5 counterexample**: `__setattr__` applies the `_pull` (read) coercion,
not the `_push` (write) coercion.  On a kind whose `_push` overrides a date
field with the formatter (as the repository's models do), assigning an
already-parsed datetime stores the datetime itself, not the string the
write-coercion would produce — though a write-coercion for the field
exists. -/
theorem setattr_write_coercion_counterexample :
    setattrFn mixedKind [] "start_date" (PyVal.dt ⟨2021, 1, 5, 10, 0, 0⟩) =
      .ok [("start_date", PyVal.dt ⟨2021, 1, 5, 10, 0, 0⟩)] ∧
    tableGet mixedKind.push "start_date" = some strftFn ∧
    strftFn (PyVal.dt ⟨2021, 1, 5, 10, 0, 0⟩) =
      .ok (PyVal.str "2021-01-05T10:00:00") ∧
    PyVal.dt ⟨2021, 1, 5, 10, 0, 0⟩ ≠ PyVal.str "2021-01-05T10:00:00" := by
  refine ⟨rfl, rfl, rfl, by decide⟩

/-- **C5 amended**: attribute assignment stores the result of the entity
kind's *read*-coercion (`_pull.get`) when one exists and the raw value
unchanged otherwise — for every field, including fields of the read-only set
(no read-only check appears in `__setattr__`). -/
theorem setattr_applies_read_coercion (kind : EntityKind) (props : PData)
    (attrName : String) (value : PyVal) :
    (∀ f w, tableGet kind.pull attrName = some f → f value = .ok w →
      setattrFn kind props attrName value = .ok (pset props attrName w)) ∧
    (tableGet kind.pull attrName = Option.none →
      setattrFn kind props attrName value = .ok (pset props attrName value)) := by
  constructor
  · intro f w hf hw
    simp only [setattrFn, hf, hw, Except.map]
  · intro hf
    simp only [setattrFn, hf]

/-- **C5 amended witness**: assigning through a read-coercion (identity on a
parsed datetime) and to the read-only field `id` (stored regardless). -/
theorem setattr_applies_read_coercion_witness :
    setattrFn mixedKind [] "start_date" (PyVal.dt ⟨2021, 1, 5, 10, 0, 0⟩) =
      .ok [("start_date", PyVal.dt ⟨2021, 1, 5, 10, 0, 0⟩)] ∧
    setattrFn mixedKind [] "id" (PyVal.int 7) = .ok [("id", PyVal.int 7)] :=
  ⟨(setattr_applies_read_coercion mixedKind [] "start_date"
      (PyVal.dt ⟨2021, 1, 5, 10, 0, 0⟩)).1 strptFn (PyVal.dt ⟨2021, 1, 5, 10, 0, 0⟩)
      rfl rfl,
   (setattr_applies_read_coercion mixedKind [] "id" (PyVal.int 7)).2 rfl⟩

/-- **C7**: hydrating an instance from a raw mapping at construction applies
the read-coercion to every field that has one in the `_pull` table
(`_pull.get(attr) is not None`) and passes every other field through
unchanged. -/
theorem init_hydration_applies_read_coercion (kind : EntityKind)
    (raw out : PData) (h : initEntity kind (some raw) = .ok out) (k : String)
    (v : PyVal) (hl : plookup raw k = some v) :
    (∀ f, tableGet kind.pull k = some f →
      ∃ w, f v = .ok w ∧ plookup out k = some w) ∧
    (tableGet kind.pull k = Option.none → plookup out k = some v) := by
  have hh : hydrate kind raw = .ok out := h
  constructor
  · intro f hf
    exact hydrate_lookup_fn kind raw out k v f hh hl hf
  · intro hf
    rw [hydrate_lookup_none kind raw out k hh hf]
    exact hl

/-- **C7 witness**: a BudgetFlight hydrated from `{'id': '12', 'name': 'x'}`:
`id` is int-coerced, `name` (whose `_pull` entry is `None`) passes through. -/
theorem init_hydration_applies_read_coercion_witness :
    (∃ w, pyIntFn (PyVal.str "12") = .ok w ∧
      plookup [("id", PyVal.int 12), ("name", PyVal.str "x")] "id" = some w) ∧
    plookup [("id", PyVal.int 12), ("name", PyVal.str "x")] "name" =
      some (PyVal.str "x") :=
  ⟨(init_hydration_applies_read_coercion budgetFlight
      [("id", PyVal.str "12"), ("name", PyVal.str "x")]
      [("id", PyVal.int 12), ("name", PyVal.str "x")] rfl "id" (PyVal.str "12")
      rfl).1 pyIntFn rfl,
   (init_hydration_applies_read_coercion budgetFlight
      [("id", PyVal.str "12"), ("name", PyVal.str "x")]
      [("id", PyVal.int 12), ("name", PyVal.str "x")] rfl "name" (PyVal.str "x")
      rfl).2 rfl⟩

/-- **C8**: for every string in the fixed pattern `YYYY-MM-DDTHH:MM:SS`
(characterised as an output of the paired formatter on an in-range datetime),
parsing with `_strpt` and formatting with `_strft` yields the original
string; and `_strpt` applied to an already-parsed datetime returns it
unchanged. -/
theorem strpt_strft_roundtrip (s : String) (h : ∃ d, validDT d ∧ fmtDT d = s) :
    (∃ d, strptFn (PyVal.str s) = .ok (PyVal.dt d) ∧
      strftFn (PyVal.dt d) = .ok (PyVal.str s)) ∧
    (∀ d', strptFn (PyVal.dt d') = .ok (PyVal.dt d')) := by
  obtain ⟨d, hv, rfl⟩ := h
  refine ⟨⟨d, ?_, rfl⟩, fun d' => rfl⟩
  simp only [strptFn, parseDT_fmtDT d hv]

/-- **C8 witness**: `"2021-01-05T10:00:00"` round-trips. -/
theorem strpt_strft_roundtrip_witness :
    (∃ d, strptFn (PyVal.str "2021-01-05T10:00:00") = .ok (PyVal.dt d) ∧
      strftFn (PyVal.dt d) = .ok (PyVal.str "2021-01-05T10:00:00")) ∧
    (∀ d', strptFn (PyVal.dt d') = .ok (PyVal.dt d')) :=
  strpt_strft_roundtrip "2021-01-05T10:00:00"
    ⟨⟨2021, 1, 5, 10, 0, 0⟩, by decide, by decide⟩

/-- **C9**: `BudgetFlight.save` on an instance whose mapping contains
`campaign_id` raises for every choice of the data argument, before any HTTP
request is issued (the request list is empty for every transport): with
`data=None` it reads the nonexistent `_properties` attribute (raising
`AttributeError`, the spec's `AttributeNotFound`), and with an explicit
payload the forwarded `url` keyword that `Entity.save` does not accept
raises `TypeError`. -/
theorem budgetflight_save_raises_before_transport (props : PData)
    (constructUrl : String) (data? : Option PData) (post : Transport)
    (h : pmem props "campaign_id" = true) :
    (bfSave props constructUrl data? post).props = props ∧
    (bfSave props constructUrl data? post).requests = [] ∧
    (bfSave props constructUrl data? post).error.isSome = true ∧
    (data? = Option.none → pmem props "_properties" = false →
      (bfSave props constructUrl data? post).error =
        some (.attributeError "_properties")) ∧
    (∀ d, data? = some d → (bfSave props constructUrl data? post).error =
      some (.typeError "save() got an unexpected keyword argument: url")) := by
  obtain ⟨cid, hcid⟩ : ∃ cid, plookup props "campaign_id" = some cid := by
    unfold pmem at h
    cases hc : plookup props "campaign_id" with
    | some v => exact ⟨v, rfl⟩
    | none =>
      rw [hc] at h
      exact absurd h (by simp)
  have hg1 : getattrFn props "campaign_id" = .ok cid := by
    unfold getattrFn
    rw [hcid]
  cases data? with
  | some d =>
    refine ⟨by simp [bfSave, hg1], by simp [bfSave, hg1], by simp [bfSave, hg1],
      by simp, by simp [bfSave, hg1]⟩
  | none =>
    cases hp : plookup props "_properties" with
    | none =>
      have hg2 : getattrFn props "_properties" = .error (.attributeError "_properties") := by
        unfold getattrFn
        rw [hp]
      refine ⟨by simp [bfSave, hg1, hg2], by simp [bfSave, hg1, hg2],
        by simp [bfSave, hg1, hg2], by simp [bfSave, hg1, hg2], by simp⟩
    | some v =>
      have hg2 : getattrFn props "_properties" = .ok v := by
        unfold getattrFn
        rw [hp]
      refine ⟨by simp [bfSave, hg1, hg2, copyMethod],
        by simp [bfSave, hg1, hg2, copyMethod],
        by simp [bfSave, hg1, hg2, copyMethod], ?_, by simp⟩
      intro _ hnp
      rw [pmem_false_iff] at hnp
      rw [hnp] at hp
      exact absurd hp (by simp)

/-- **C9 witness**: a flight with only `campaign_id`, saved with
`data=None`. -/
theorem budgetflight_save_raises_before_transport_witness :
    (bfSave [("campaign_id", PyVal.int 3)] "budget_flights" Option.none
      (fun _ _ => .ok [])).requests = [] ∧
    (bfSave [("campaign_id", PyVal.int 3)] "budget_flights" Option.none
      (fun _ _ => .ok [])).error = some (.attributeError "_properties") := by
  have h := budgetflight_save_raises_before_transport
    [("campaign_id", PyVal.int 3)] "budget_flights" Option.none
    (fun _ _ => .ok []) (by decide)
  exact ⟨h.2.1, h.2.2.2.1 rfl (by decide)⟩

/-- **C10**: for every entity kind whose `_pull` table maps a field to `None`
(as BudgetFlight maps `name`, `currency_code`, `zone_name`), the read
validator raises on any mapping containing that field (the `None` entry is
called), while construction-time hydration passes the field through
unchanged. -/
theorem validate_read_none_entry_raises (kind : EntityKind) (data : PData)
    (k : String) (hentry : tableEntry kind.pull k = some Option.none)
    (hmem : pmem data k = true) :
    (∃ e, validateRead kind data = .error e) ∧
    (∀ out, hydrate kind data = .ok out → plookup out k = plookup data k) := by
  constructor
  · exact validateRead_error_of_noneEntry kind data k hentry hmem
  · intro out hout
    refine hydrate_lookup_none kind data out k hout ?_
    unfold tableGet
    rw [hentry]

/-- **C10 witness**: BudgetFlight's `name` entry. -/
theorem validate_read_none_entry_raises_witness :
    (∃ e, validateRead budgetFlight [("name", PyVal.str "Flight A")] = .error e) ∧
    (∀ out, hydrate budgetFlight [("name", PyVal.str "Flight A")] = .ok out →
      plookup out "name" = plookup [("name", PyVal.str "Flight A")] "name") :=
  validate_read_none_entry_raises budgetFlight [("name", PyVal.str "Flight A")]
    "name" rfl rfl

end T1
